import Mathlib

/-!
Verification of the `video_tools` background-subtraction engine
(`video_tools/background.py`, `video_tools/mode.py`) against its
natural-language specification.

The code is shallowly embedded: numpy arrays become explicit
height/width/dtype records whose pixel data is a total function into ℚ
(floating-point values are idealized as exact rationals; no claim settled
here depends on rounding of binary floating point, and where a numeric
boundary could matter the concrete inputs are chosen far from it).
In-place numpy operations (`out=`) are modelled by writing into the
destination buffer, buffer aliasing by a small address-indexed heap, and
Python exceptions by `Except`.
-/

namespace VideoTools

/-- numpy dtypes appearing on the code paths under verification. -/
inductive DType where
  | u8 : DType
  | f32 : DType
  | f64 : DType
deriving DecidableEq, Repr

/-- numpy type promotion for the array/array binary operations used in the
subtraction pipelines (uint8 promotes to either float type, float32 with
float64 gives float64). -/
def DType.promote : DType → DType → DType
  | .u8, y => y
  | x, .u8 => x
  | .f32, y => y
  | x, .f32 => x
  | .f64, .f64 => .f64

/-- Pixel grid of a 2-D numpy array: total function from (row, col) to the
stored value. -/
def FrameData : Type := ℕ → ℕ → ℚ

/-- The all-zero grid (contents of a zeroed buffer such as a fresh
`RawArray`, `np.zeros`, or `np.zeros_like`). -/
def zeroData : FrameData := fun _ _ => 0

/-- A 2-D numpy image array: height, width, dtype and pixel data. -/
structure Frame where
  height : ℕ
  width : ℕ
  dtype : DType
  data : FrameData

/-- `Polarity` enum from `background.py`. -/
inductive Polarity where
  | DARK_ON_BRIGHT : Polarity
  | BRIGHT_ON_DARK : Polarity
deriving DecidableEq, Repr

/-- `Polarity.value`: `DARK_ON_BRIGHT = -1`, `BRIGHT_ON_DARK = 1`. -/
def Polarity.value : Polarity → ℤ
  | .DARK_ON_BRIGHT => -1
  | .BRIGHT_ON_DARK => 1

/-- Modelled from the spec: `im2gray` from the external `image_tools`
package (out of scope, "consumed, not re-specified").  The data model's
frames are single-channel 2-D intensity maps, on which grayscale
conversion is the identity. -/
def im2gray (f : Frame) : Frame := f

/-- Modelled from the spec: `im2single` from the external `image_tools`
package, contract "to_single_precision_grayscale(frame) -> frame in
[0,1]": conversion to single precision, rescaling integer (uint8) data by
1/255 and keeping floating data (already in [0,1] by the contract). -/
def im2single (f : Frame) : Frame :=
  { f with dtype := DType.f32,
           data := fun r c => if f.dtype = DType.u8 then f.data r c / 255 else f.data r c }

/-! ## `video_tools/mode.py`

A sample stack for the aggregation functions is represented as a list of
rows, each row a list of pixels, each pixel the list of its K sampled
values along numpy's third axis.  Row-chunking (`arr[i:i+chunk_size]`) is
then `List.take`/`List.drop`, and `np.vstack` is list concatenation. -/

/-- Per-pixel behaviour of `scipy.stats.mode` along the sample axis: the
smallest value among those occurring most often (scipy's lowest-value
tie-breaking convention). -/
def modeVal (xs : List ℚ) : ℚ :=
  xs.foldl
    (fun best v =>
      if xs.count v > xs.count best ∨ (xs.count v = xs.count best ∧ v < best) then v else best)
    (xs.headD 0)

/-- `mode(x) = stats.mode(x, axis=2, keepdims=False).mode`: per-pixel mode
along the third axis. -/
def mode (x : List (List (List ℚ))) : List (List ℚ) :=
  x.map (fun row => row.map modeVal)

/-- Errors raised by the embedded Python code. -/
inductive PyError where
  | ValueErr : PyError
  | ZeroDivisionErr : PyError
  | AttributeErr : PyError
  | IndexErr : PyError
  | UnboundLocalErr : PyError
  | TypeErr : PyError
deriving DecidableEq, Repr

/-- `[arr[i:i + chunk_size] for i in range(0, arr.shape[0], chunk_size)]`
for a positive step `cs`; the `cs = 0` case (where Python's `range` raises
`ValueError`) is handled by the caller. -/
def chunkRows (cs : ℕ) (l : List (List (List ℚ))) : List (List (List (List ℚ))) :=
  if h : cs = 0 ∨ l = [] then []
  else l.take cs :: chunkRows cs (l.drop cs)
termination_by l.length
decreasing_by
  push_neg at h
  have h1 : 0 < cs := Nat.pos_of_ne_zero h.1
  have h2 : 0 < l.length := List.length_pos.mpr h.2
  simp only [List.length_drop]
  omega

/-- `mode_multiprocessed(arr, num_processes)`: splits the rows into chunks
of size `int(arr.shape[0] / num_processes)`, maps `mode` over the chunks
(the `Pool.map` is modelled by its sequential semantics) and re-stacks the
results with `np.vstack` (the trailing `out.reshape(arr.shape[:-1])`
discards its result and is a no-op).  When the chunk size is 0, Python's
`range(0, H, 0)` raises (`ValueError`; for `num_processes = 0` the
division itself raises first). -/
def mode_multiprocessed (arr : List (List (List ℚ))) (num_processes : ℕ) :
    Except PyError (List (List ℚ)) :=
  let chunk_size := arr.length / num_processes
  if chunk_size = 0 then .error .ValueErr
  else .ok ((chunkRows chunk_size arr).map mode).flatten

theorem join_chunkRows_aux (cs : ℕ) (hcs : 0 < cs) :
    ∀ n (l : List (List (List ℚ))), l.length ≤ n → (chunkRows cs l).flatten = l := by
  intro n
  induction n with
  | zero =>
    intro l h
    have hl : l = [] := List.length_eq_zero.mp (Nat.le_zero.mp h)
    subst hl
    rw [chunkRows.eq_def]
    simp
  | succ n ih =>
    intro l h
    rw [chunkRows.eq_def]
    by_cases hl : l = []
    · simp [hl]
    · have hne : ¬ (cs = 0 ∨ l = []) := by
        push_neg
        exact ⟨by omega, hl⟩
      rw [dif_neg hne]
      have hlen : (l.drop cs).length ≤ n := by
        have hpos : 0 < l.length := List.length_pos.mpr hl
        simp only [List.length_drop]
        omega
      simp only [List.flatten_cons, ih (l.drop cs) hlen, List.take_append_drop]

/-- Concatenating the row chunks back yields the original row list. -/
theorem join_chunkRows (cs : ℕ) (hcs : 0 < cs) (l : List (List (List ℚ))) :
    (chunkRows cs l).flatten = l :=
  join_chunkRows_aux cs hcs l.length l le_rfl

/-- `np.vstack` of per-chunk modes equals the mode of the re-stacked rows. -/
theorem flatten_map_mode (L : List (List (List (List ℚ)))) :
    (L.map mode).flatten = mode L.flatten := by
  induction L with
  | nil => rfl
  | cons c rest ih => simp [mode, ih]

theorem map_join_chunkRows (cs : ℕ) (hcs : 0 < cs) (l : List (List (List ℚ))) :
    ((chunkRows cs l).map mode).flatten = mode l := by
  rw [flatten_map_mode, join_chunkRows cs hcs l]

/-- C9: for every sample stack and every worker count that yields a genuine
partition of the rows into contiguous non-empty chunks (`1 ≤ p ≤ H`,
whether or not `p` divides `H` evenly), the partitioned mode aggregation
`mode_multiprocessed` produces output pixel-identical to the direct
aggregation `mode` on the same stack. -/
theorem mode_multiprocessed_eq_mode (arr : List (List (List ℚ))) (p : ℕ)
    (hp : 1 ≤ p) (hpH : p ≤ arr.length) :
    mode_multiprocessed arr p = Except.ok (mode arr) := by
  have hcs : 0 < arr.length / p := Nat.div_pos hpH hp
  unfold mode_multiprocessed
  rw [if_neg (by omega)]
  rw [map_join_chunkRows _ hcs arr]

/-- Witness for C9: a 2×1×3 stack split across 2 workers (uneven last
chunk sizes exercised by the arithmetic itself). -/
theorem mode_multiprocessed_eq_mode_witness :
    (1 : ℕ) ≤ 2
    ∧ 2 ≤ ([[[(0:ℚ),1,1]],[[2,2,3]]] : List (List (List ℚ))).length
    ∧ mode_multiprocessed [[[(0:ℚ),1,1]],[[2,2,3]]] 2
        = Except.ok (mode [[[(0:ℚ),1,1]],[[2,2,3]]]) :=
  ⟨by norm_num, by norm_num,
    mode_multiprocessed_eq_mode [[[(0:ℚ),1,1]],[[2,2,3]]] 2 (by norm_num) (by norm_num)⟩

/-! ## `BoundedQueue`: the shared ring buffer of `background.py` -/

/-- `BoundedQueue`: `maxlen` slots of height×width float32 frames backed by
a `RawArray`, with `numel` (count of populated slots) and `insert_ind`
(next write position).  Slot contents are modelled as `FrameData` grids;
the fixed `size` of a slot plays no role in the bookkeeping. -/
structure BoundedQueue where
  maxlen : ℕ
  numel : ℕ
  insert_ind : ℕ
  data : ℕ → FrameData

/-- `BoundedQueue.__init__`: both `Value('i', 0)` counters start at zero
and the `RawArray(ctypes.c_float, ...)` backing store is zero-initialized. -/
def BoundedQueue.new (maxlen : ℕ) : BoundedQueue :=
  { maxlen := maxlen, numel := 0, insert_ind := 0, data := fun _ => zeroData }

/-- `BoundedQueue.append`: `np.copyto` the item into slot `insert_ind`,
then `numel = min(numel + 1, maxlen)` and `insert_ind = (insert_ind + 1) %
maxlen`.  (Python's `% 0` raises `ZeroDivisionError`; the theorems assume
a positive capacity.) -/
def BoundedQueue.append (q : BoundedQueue) (item : FrameData) : BoundedQueue :=
  { q with
    data := Function.update q.data q.insert_ind item,
    numel := min (q.numel + 1) q.maxlen,
    insert_ind := (q.insert_ind + 1) % q.maxlen }

/-- `BoundedQueue.get_data`: `None` when no slot is populated, otherwise
the view `data_np[0:numel]`, i.e. slots `0, …, numel − 1` in buffer
order. -/
def BoundedQueue.get_data (q : BoundedQueue) : Option (List FrameData) :=
  if q.numel = 0 then none
  else some ((List.range q.numel).map q.data)

/-- A whole sequence of `append` calls. -/
def appendAll (q : BoundedQueue) (items : List FrameData) : BoundedQueue :=
  items.foldl BoundedQueue.append q

/-- Index (into the append sequence of length `n`) of the last item written
to slot `i` of a capacity-`C` ring buffer: the largest `j < n` with
`j % C = i`. -/
def lastOcc (n C i : ℕ) : ℕ :=
  if i < n % C then C * (n / C) + i else C * (n / C) - C + i

theorem appendAll_append (q : BoundedQueue) (items : List FrameData) (x : FrameData) :
    appendAll q (items ++ [x]) = (appendAll q items).append x := by
  simp [appendAll, List.foldl_append]

theorem appendAll_maxlen (q : BoundedQueue) (items : List FrameData) :
    (appendAll q items).maxlen = q.maxlen := by
  induction items generalizing q with
  | nil => rfl
  | cons y ys ih => simpa [appendAll, List.foldl_cons] using ih (q.append y)

theorem new_maxlen (C : ℕ) : (BoundedQueue.new C).maxlen = C := rfl

theorem appendAll_numel (C : ℕ) (items : List FrameData) :
    (appendAll (BoundedQueue.new C) items).numel = min items.length C := by
  induction items using List.reverseRecOn with
  | nil => simp [appendAll, BoundedQueue.new]
  | append_singleton items x ih =>
    rw [appendAll_append]
    simp only [BoundedQueue.append, appendAll_maxlen, new_maxlen, ih,
      List.length_append, List.length_singleton]
    omega

theorem appendAll_insert_ind (C : ℕ) (items : List FrameData) :
    (appendAll (BoundedQueue.new C) items).insert_ind = items.length % C := by
  induction items using List.reverseRecOn with
  | nil => simp [appendAll, BoundedQueue.new]
  | append_singleton items x ih =>
    rw [appendAll_append]
    simp only [BoundedQueue.append, appendAll_maxlen, new_maxlen, ih,
      List.length_append, List.length_singleton]
    rw [Nat.mod_add_mod]

theorem lastOcc_lt (n C i : ℕ) (hC : 0 < C) (hi : i < min n C) : lastOcc n C i < n := by
  have hr : n % C < C := Nat.mod_lt _ hC
  have hmn : C * (n / C) + n % C = n := Nat.div_add_mod n C
  unfold lastOcc
  split <;> omega

theorem lastOcc_succ_self (n C : ℕ) (hC : 0 < C) : lastOcc (n + 1) C (n % C) = n := by
  have hr : n % C < C := Nat.mod_lt _ hC
  have hmn : C * (n / C) + n % C = n := Nat.div_add_mod n C
  by_cases hB : n % C + 1 = C
  · have e : n + 1 = C * (n / C + 1) := by rw [Nat.mul_succ]; omega
    have h1 : (n + 1) % C = 0 := by rw [e]; exact Nat.mul_mod_right C _
    have h2 : (n + 1) / C = n / C + 1 := by rw [e]; exact Nat.mul_div_cancel_left _ hC
    unfold lastOcc
    rw [h1, h2, Nat.mul_succ]
    split <;> omega
  · have e : n + 1 = C * (n / C) + (n % C + 1) := by omega
    have h1 : (n + 1) % C = n % C + 1 := by
      rw [e, Nat.mul_add_mod, Nat.mod_eq_of_lt (by omega)]
    have h2 : (n + 1) / C = n / C := by
      rw [e, Nat.mul_add_div hC, Nat.div_eq_of_lt (show n % C + 1 < C by omega), Nat.add_zero]
    unfold lastOcc
    rw [h1, h2]
    split <;> omega

theorem lastOcc_succ_ne (n C i : ℕ) (hC : 0 < C) (hiC : i < C) (hne : i ≠ n % C)
    (hlt : i < min (n + 1) C) :
    i < min n C ∧ lastOcc (n + 1) C i = lastOcc n C i := by
  have hr : n % C < C := Nat.mod_lt _ hC
  have hmn : C * (n / C) + n % C = n := Nat.div_add_mod n C
  constructor
  · by_cases hnC : n < C
    · have := Nat.mod_eq_of_lt hnC
      omega
    · omega
  · by_cases hB : n % C + 1 = C
    · have e : n + 1 = C * (n / C + 1) := by rw [Nat.mul_succ]; omega
      have h1 : (n + 1) % C = 0 := by rw [e]; exact Nat.mul_mod_right C _
      have h2 : (n + 1) / C = n / C + 1 := by rw [e]; exact Nat.mul_div_cancel_left _ hC
      unfold lastOcc
      rw [h1, h2, Nat.mul_succ]
      split <;> split <;> omega
    · have e : n + 1 = C * (n / C) + (n % C + 1) := by omega
      have h1 : (n + 1) % C = n % C + 1 := by
        rw [e, Nat.mul_add_mod, Nat.mod_eq_of_lt (by omega)]
      have h2 : (n + 1) / C = n / C := by
        rw [e, Nat.mul_add_div hC, Nat.div_eq_of_lt (show n % C + 1 < C by omega), Nat.add_zero]
      unfold lastOcc
      rw [h1, h2]
      split <;> split <;> omega

/-- After appending `items` into a fresh capacity-`C` ring buffer, slot
`i < C` holds the most recently appended item whose append position is
congruent to `i` modulo `C` (and is still zeroed if no such item exists). -/
theorem appendAll_data (C : ℕ) (hC : 0 < C) (items : List FrameData) :
    ∀ i < C, (appendAll (BoundedQueue.new C) items).data i
      = if i < min items.length C
        then items.getD (lastOcc items.length C i) zeroData
        else zeroData := by
  induction items using List.reverseRecOn with
  | nil =>
    intro i hi
    simp [appendAll, BoundedQueue.new]
  | append_singleton items x ih =>
    intro i hi
    rw [appendAll_append]
    simp only [BoundedQueue.append, List.length_append, List.length_singleton]
    rw [appendAll_insert_ind C items, Function.update_apply]
    by_cases hir : i = items.length % C
    · rw [if_pos hir]
      have hle : items.length % C ≤ items.length := Nat.mod_le _ _
      have h1 : i < min (items.length + 1) C := by omega
      rw [if_pos h1, hir, lastOcc_succ_self items.length C hC]
      rw [List.getD_append_right items [x] zeroData items.length le_rfl]
      simp
    · rw [if_neg hir, ih i hi]
      by_cases hlt : i < min (items.length + 1) C
      · obtain ⟨h1, h2⟩ := lastOcc_succ_ne items.length C i hC hi hir hlt
        rw [if_pos h1, if_pos hlt, h2]
        have h3 := lastOcc_lt items.length C i hC h1
        rw [List.getD_append items [x] zeroData _ h3]
      · have h1 : ¬ i < min items.length C := by omega
        rw [if_neg h1, if_neg hlt]

theorem map_getD_range {α : Type} (l : List α) (d : α) :
    (List.range l.length).map (fun i => l.getD i d) = l := by
  apply List.ext_getElem
  · simp
  · intro i h1 h2
    simp only [List.getElem_map, List.getElem_range]
    exact List.getD_eq_getElem l d h2

theorem lastOcc_le (n C i : ℕ) (hC : 0 < C) (hn : n ≤ C) (hi : i < n) :
    lastOcc n C i = i := by
  by_cases hlt : n < C
  · have h1 : n % C = n := Nat.mod_eq_of_lt hlt
    have h2 : n / C = 0 := Nat.div_eq_of_lt hlt
    unfold lastOcc
    rw [h1, h2]
    split <;> omega
  · have hnC : n = C := by omega
    subst hnC
    have h1 : n % n = 0 := Nat.mod_self n
    have h2 : n / n = 1 := Nat.div_self hC
    unfold lastOcc
    rw [h1, h2]
    split <;> omega

theorem lastOcc_mod_formula (n C i : ℕ) (hC : 0 < C) (hn : C < n) (hi : i < C) :
    lastOcc n C i = (n - C) + ((i + (C - n % C)) % C) := by
  have hr : n % C < C := Nat.mod_lt _ hC
  have hmn : C * (n / C) + n % C = n := Nat.div_add_mod n C
  have hq : 1 ≤ n / C := (Nat.one_le_div_iff hC).mpr (le_of_lt hn)
  have hCm : C ≤ C * (n / C) := by
    calc C = C * 1 := (Nat.mul_one C).symm
    _ ≤ C * (n / C) := Nat.mul_le_mul_left C hq
  by_cases hcase : i < n % C
  · have hmod : (i + (C - n % C)) % C = C - n % C + i := by
      rw [Nat.mod_eq_of_lt (by omega)]
      omega
    unfold lastOcc
    rw [if_pos hcase, hmod]
    omega
  · have hmod : (i + (C - n % C)) % C = i - n % C := by
      have he : i + (C - n % C) = C + (i - n % C) := by omega
      rw [he, Nat.add_mod_left, Nat.mod_eq_of_lt (by omega)]
    unfold lastOcc
    rw [if_neg hcase, hmod]
    omega

/-- A full buffer reads out as a rotation of the last `C` appended items. -/
theorem getData_full_rotate (C : ℕ) (hC : 0 < C) (items : List FrameData)
    (hn : C < items.length) :
    (List.range C).map (appendAll (BoundedQueue.new C) items).data
      = (items.drop (items.length - C)).rotate (C - items.length % C) := by
  have hdl : (items.drop (items.length - C)).length = C := by
    simp only [List.length_drop]
    omega
  apply List.ext_getElem
  · simp only [List.length_map, List.length_range, List.length_rotate, hdl]
  · intro i h1 h2
    have hiC : i < C := by simpa using h1
    rw [List.getElem_map, List.getElem_range,
      appendAll_data C hC items i hiC, if_pos (by omega), List.getElem_rotate]
    simp only [hdl, List.getElem_drop]
    rw [lastOcc_mod_formula items.length C i hC hn hiC]
    have hb : items.length - C + (i + (C - items.length % C)) % C < items.length := by
      have := Nat.mod_lt (i + (C - items.length % C)) hC
      omega
    exact List.getD_eq_getElem items zeroData hb

/-- C2: over every sequence of appends into a fresh capacity-`C` ring
buffer, `numel` equals `min n C` — it never exceeds the capacity and
saturates there; with no appends `get_data()` is `None`; after `1 ≤ n ≤ C`
appends `get_data()` returns exactly those `n` frames in insertion order;
and after `n > C` appends it returns exactly the `C` most recently
appended frames (a permutation of the last `C` items — the older ones were
overwritten oldest-first, FIFO eviction). -/
theorem boundedQueue_count_and_fifo (C : ℕ) (hC : 0 < C) (items : List FrameData) :
    (appendAll (BoundedQueue.new C) items).numel = min items.length C
    ∧ (items.length = 0 → (appendAll (BoundedQueue.new C) items).get_data = none)
    ∧ (1 ≤ items.length → items.length ≤ C →
        (appendAll (BoundedQueue.new C) items).get_data = some items)
    ∧ (C < items.length → ∃ l, (appendAll (BoundedQueue.new C) items).get_data = some l
        ∧ l.Perm (items.drop (items.length - C))) := by
  refine ⟨appendAll_numel C items, ?_, ?_, ?_⟩
  · intro h0
    unfold BoundedQueue.get_data
    rw [appendAll_numel C items, h0]
    simp
  · intro h1 h2
    unfold BoundedQueue.get_data
    rw [appendAll_numel C items]
    have hmin : min items.length C = items.length := by omega
    rw [hmin, if_neg (by omega)]
    congr 1
    have hpt : ∀ i ∈ List.range items.length,
        (appendAll (BoundedQueue.new C) items).data i = items.getD i zeroData := by
      intro i hi
      rw [List.mem_range] at hi
      rw [appendAll_data C hC items i (by omega), if_pos (by omega),
        lastOcc_le items.length C i hC h2 hi]
    rw [List.map_congr_left hpt]
    exact map_getD_range items zeroData
  · intro hn
    refine ⟨(List.range C).map (appendAll (BoundedQueue.new C) items).data, ?_, ?_⟩
    · unfold BoundedQueue.get_data
      rw [appendAll_numel C items]
      have hmin : min items.length C = C := by omega
      rw [hmin, if_neg (by omega)]
    · rw [getData_full_rotate C hC items hn]
      exact List.rotate_perm _ _

/-- Witness for C2: capacity 2, three appended frames (overflow by one). -/
theorem boundedQueue_count_and_fifo_witness :
    (0 : ℕ) < 2
    ∧ ((appendAll (BoundedQueue.new 2)
          [(fun _ _ => (10:ℚ) : FrameData), (fun _ _ => (20:ℚ) : FrameData),
           (fun _ _ => (30:ℚ) : FrameData)]).numel
        = min ([(fun _ _ => (10:ℚ) : FrameData), (fun _ _ => (20:ℚ) : FrameData),
           (fun _ _ => (30:ℚ) : FrameData)] : List FrameData).length 2
      ∧ (([(fun _ _ => (10:ℚ) : FrameData), (fun _ _ => (20:ℚ) : FrameData),
           (fun _ _ => (30:ℚ) : FrameData)] : List FrameData).length = 0 →
          (appendAll (BoundedQueue.new 2)
            [(fun _ _ => (10:ℚ) : FrameData), (fun _ _ => (20:ℚ) : FrameData),
             (fun _ _ => (30:ℚ) : FrameData)]).get_data = none)
      ∧ (1 ≤ ([(fun _ _ => (10:ℚ) : FrameData), (fun _ _ => (20:ℚ) : FrameData),
           (fun _ _ => (30:ℚ) : FrameData)] : List FrameData).length →
         ([(fun _ _ => (10:ℚ) : FrameData), (fun _ _ => (20:ℚ) : FrameData),
           (fun _ _ => (30:ℚ) : FrameData)] : List FrameData).length ≤ 2 →
          (appendAll (BoundedQueue.new 2)
            [(fun _ _ => (10:ℚ) : FrameData), (fun _ _ => (20:ℚ) : FrameData),
             (fun _ _ => (30:ℚ) : FrameData)]).get_data
            = some [(fun _ _ => (10:ℚ) : FrameData), (fun _ _ => (20:ℚ) : FrameData),
             (fun _ _ => (30:ℚ) : FrameData)])
      ∧ (2 < ([(fun _ _ => (10:ℚ) : FrameData), (fun _ _ => (20:ℚ) : FrameData),
           (fun _ _ => (30:ℚ) : FrameData)] : List FrameData).length →
          ∃ l, (appendAll (BoundedQueue.new 2)
            [(fun _ _ => (10:ℚ) : FrameData), (fun _ _ => (20:ℚ) : FrameData),
             (fun _ _ => (30:ℚ) : FrameData)]).get_data = some l
            ∧ l.Perm (([(fun _ _ => (10:ℚ) : FrameData), (fun _ _ => (20:ℚ) : FrameData),
             (fun _ _ => (30:ℚ) : FrameData)] : List FrameData).drop
              (([(fun _ _ => (10:ℚ) : FrameData), (fun _ _ => (20:ℚ) : FrameData),
               (fun _ _ => (30:ℚ) : FrameData)] : List FrameData).length - 2)))) :=
  ⟨by norm_num,
    boundedQueue_count_and_fifo 2 (by norm_num)
      [(fun _ _ => (10:ℚ) : FrameData), (fun _ _ => (20:ℚ) : FrameData),
       (fun _ _ => (30:ℚ) : FrameData)]⟩



/-! ## Frame sampling (`StaticBackground.sample_frames_evenly`) -/

/-- Truncation toward zero, the conversion `astype(np.int64)` applies to
floating values. -/
def truncQ (x : ℚ) : ℤ :=
  if 0 ≤ x then ⌊x⌋ else -⌊-x⌋

/-- `np.linspace(0, numframes - 1, num_sample_frames, dtype=np.int64)`:
`num_sample_frames` evenly spaced points from 0 to `numframes - 1`
inclusive (`i * (numframes - 1) / (num_sample_frames - 1)`), truncated —
not rounded — to integers by the `int64` conversion.  float64 arithmetic
is idealized by exact rationals; the concrete instances settled below lie
far from the truncation boundaries.  `num_sample_frames ≤ 1` degenerates
to the start point 0. -/
def sampleIndices (numframes num_sample_frames : ℕ) (i : ℕ) : ℤ :=
  if num_sample_frames ≤ 1 then 0
  else truncQ ((i : ℚ) * ((numframes : ℚ) - 1) / ((num_sample_frames : ℚ) - 1))

/-- An H×W×K sample stack (`np.empty((height, width, n), dtype=np.float32)`
filled along the third axis). -/
structure SampleStack where
  height : ℕ
  width : ℕ
  k : ℕ
  dtype : DType
  data : ℕ → ℕ → ℕ → ℚ

/-- `StaticBackground.sample_frames_evenly`.  `read i` models
`seek_to(i)` followed by `next_frame()`, with `none` for `rval = False`.
In the failure branch the source CONSTRUCTS
`RuntimeError('StaticBackground::sample_frames_evenly frame not valid')`
but never raises it, so the loop continues and slot `i` keeps the
uninitialized contents of `np.empty` (the `garbage` parameter); the
function always returns normally. -/
def StaticBackground.sample_frames_evenly (height width numframes num_sample_frames : ℕ)
    (read : ℤ → Option Frame) (garbage : ℕ → ℕ → ℕ → ℚ) : Except PyError SampleStack :=
  Except.ok
    { height := height, width := width, k := num_sample_frames, dtype := DType.f32,
      data := fun r c i =>
        match read (sampleIndices numframes num_sample_frames i) with
        | some frame => (im2single (im2gray frame)).data r c
        | none => garbage r c i }

/-- `InpaintBackground.get_frame`: seek to `frame_num` and read one frame.
When the read fails (`rval = False`), the constructed `RuntimeError` is
never raised, and the following `return img` raises `UnboundLocalError`
because `img` was never assigned. -/
def InpaintBackground.get_frame (read : ℤ → Option Frame) (frame_num : ℤ) :
    Except PyError Frame :=
  match read frame_num with
  | some frame => Except.ok (im2single (im2gray frame))
  | none => Except.error PyError.UnboundLocalErr

/-! ## Subtraction variants -/

/-- `np.maximum(0, polarity.value * (left − background))` evaluated as a
fresh numpy expression (no `out=`): result takes the left operand's shape
and the promotion of the operand dtypes (an int scalar factor does not
change a floating dtype; raw-integer-input cases — reachable only by
feeding integer frames to the dynamic variants — involve value-based
casting and wraparound and are outside the theorems below, which
instantiate those paths at floating dtypes only). -/
def exprSubtract (p : Polarity) (left background : Frame) : Frame :=
  { height := left.height, width := left.width,
    dtype := left.dtype.promote background.dtype,
    data := fun r c => max 0 ((p.value : ℚ) * (left.data r c - background.data r c)) }

/-- `NoBackgroundSub.subtract_background`: the normalized frame, returned
without subtraction or clamping. -/
def NoBackgroundSub.subtract_background (image : Frame) : Frame :=
  im2single (im2gray image)

/-- State of a `BackroundImage` instance.  Buffers live on a small
address-indexed heap so that reference aliasing of returned arrays is
observable. -/
structure BackroundImageState where
  backgroundAddr : ℕ
  imageSingleAddr : ℕ
  heap : ℕ → Frame
  polarity : Polarity

/-- `BackroundImage.initialize` (modelled here as `initializeState`), after the background file has been
decoded to `image` (file I/O and the extension dispatch are external):
`background = im2single(im2gray(image))` and `image_single =
np.zeros_like(background)` — a zeroed float32 buffer of the same shape —
allocated at the two distinct addresses 0 and 1. -/
def BackroundImage.initializeState (image : Frame) (p : Polarity) : BackroundImageState :=
  let bg := im2single (im2gray image)
  { backgroundAddr := 0, imageSingleAddr := 1,
    heap := fun a =>
      if a = 0 then bg
      else { height := bg.height, width := bg.width, dtype := DType.f32, data := zeroData },
    polarity := p }

/-- An in-place numpy operation writing through `out=`: the destination
buffer keeps its shape and dtype and its contents are replaced (defined
for matching operand shapes, the only ones arising here). -/
def writeInto (buf : Frame) (vals : FrameData) : Frame :=
  { height := buf.height, width := buf.width, dtype := buf.dtype, data := vals }

/-- `BackroundImage.subtract_background`: four in-place numpy calls, all
writing into the preallocated `image_single` buffer, then return that
buffer — a reference, not a copy. -/
def BackroundImage.subtract_background (s : BackroundImageState) (image : Frame) :
    BackroundImageState × ℕ :=
  let buf := s.heap s.imageSingleAddr
  let bg := s.heap s.backgroundAddr
  -- im2single(im2gray(image), out=self.image_single)
  let step1 := writeInto buf (im2single (im2gray image)).data
  -- np.subtract(self.image_single, self.background, out=self.image_single)
  let step2 := writeInto step1 (fun r c => step1.data r c - bg.data r c)
  -- np.multiply(self.image_single, self.polarity.value, out=self.image_single)
  let step3 := writeInto step2 (fun r c => (s.polarity.value : ℚ) * step2.data r c)
  -- np.maximum(self.image_single, 0, out=self.image_single)
  let step4 := writeInto step3 (fun r c => max (step3.data r c) 0)
  ({ s with heap := Function.update s.heap s.imageSingleAddr step4 }, s.imageSingleAddr)

/-- `InpaintBackground.subtract_background`: normalize the incoming frame,
then `np.maximum(0, polarity.value * (image_single − background))`. -/
def InpaintBackground.subtract_background (p : Polarity) (background : Frame)
    (image : Frame) : Frame :=
  exprSubtract p (im2single (im2gray image)) background

/-- `StaticBackground.subtract_background`: identical arithmetic to the
inpainted variant, against the aggregate background. -/
def StaticBackground.subtract_background (p : Polarity) (background : Frame)
    (image : Frame) : Frame :=
  exprSubtract p (im2single (im2gray image)) background


/-- State of a `StaticBackgroundChunked` instance after `initialize`:
`background` is the H×W×num_chunks float32 stack of per-chunk aggregates,
`image_count` the running frame counter. -/
structure StaticBackgroundChunkedState where
  height : ℕ
  width : ℕ
  numframes : ℕ
  num_chunks : ℕ
  image_count : ℕ
  background : ℕ → ℕ → ℕ → ℚ
  polarity : Polarity

/-- `StaticBackgroundChunked.subtract_background`: select the chunk as
`image_count // (numframes // num_chunks)` (Python raises
`ZeroDivisionError` when `numframes // num_chunks == 0`), normalize the
frame and subtract `self.background[:, :, chunk]` — numpy raises
`IndexError` when `chunk` is not a valid third-axis index, i.e. when
`chunk ≥ num_chunks` (there is no clamping in the source) — then
increment the counter. -/
def StaticBackgroundChunked.subtract_background (s : StaticBackgroundChunkedState)
    (image : Frame) : Except PyError (Frame × StaticBackgroundChunkedState) :=
  if s.numframes / s.num_chunks = 0 then Except.error PyError.ZeroDivisionErr
  else
    let chunk := s.image_count / (s.numframes / s.num_chunks)
    if chunk < s.num_chunks then
      let bgChunk : Frame := ⟨s.height, s.width, DType.f32, fun r c => s.background r c chunk⟩
      Except.ok (exprSubtract s.polarity (im2single (im2gray image)) bgChunk,
        { s with image_count := s.image_count + 1 })
    else Except.error PyError.IndexErr

/-! ## `DynamicBackground` (in-process streaming variant) -/

/-- State of a `DynamicBackground` instance; `alg` is the selected
`background_algorithm` as a per-pixel reduction of the K sampled values
along the stack's third axis. -/
structure DynamicBackgroundState where
  num_sample_frames : ℕ
  sample_every_n_frames : ℕ
  frame_collection : List Frame
  curr_image : ℕ
  background : Option Frame
  polarity : Polarity

/-- `deque(maxlen = m).append`: append on the right, evicting the
leftmost entries when the collection would exceed `m` items. -/
def dequeAppend (maxlen : ℕ) (l : List Frame) (x : Frame) : List Frame :=
  let l2 := l ++ [x]
  if maxlen < l2.length then l2.drop (l2.length - maxlen) else l2

/-- A frame of an empty numpy stack (placeholder for out-of-range list
reads that cannot occur in the embedded calls). -/
def emptyFrame : Frame := ⟨0, 0, DType.f64, zeroData⟩

/-- `np.asarray(self.frame_collection).transpose((1,2,0))`: stack the
collected frames along a new third axis.  The dtype is the numpy
promotion of the collected frames' dtypes. -/
def stackFrames (frames : List Frame) : SampleStack :=
  { height := (frames.headD emptyFrame).height,
    width := (frames.headD emptyFrame).width,
    k := frames.length,
    dtype := match frames with
      | [] => DType.f64
      | f :: rest => rest.foldl (fun d g => d.promote g.dtype) f.dtype,
    data := fun r c i => (frames.getD i emptyFrame).data r c }

/-- The selected `background_algorithm` applied along a stack's third
axis (`mode`, `mean` or `median`): a per-pixel reduction of the K sampled
values.  On the floating-dtype stacks arising in the embedded paths all
three algorithms preserve the stack's dtype. -/
def aggregate (alg : List ℚ → ℚ) (stack : SampleStack) : Frame :=
  { height := stack.height, width := stack.width, dtype := stack.dtype,
    data := fun r c => alg ((List.range stack.k).map (fun i => stack.data r c i)) }

/-- `DynamicBackground.compute_background`: aggregate the current trailing
window into a fresh background frame. -/
def DynamicBackground.compute_background (alg : List ℚ → ℚ)
    (s : DynamicBackgroundState) : DynamicBackgroundState :=
  { s with background := some (aggregate alg (stackFrames s.frame_collection)) }

/-- `DynamicBackground.subtract_background`: every
`sample_every_n_frames`-th call appends the RAW incoming frame to the
trailing window and recomputes the background; then returns
`np.maximum(0, polarity.value * (image - background))` on the RAW frame —
no normalization anywhere on this path (cf. the module-level TODO
`make subtract_background(self, image) convert images`).  A
`sample_every_n_frames` of zero raises `ZeroDivisionError`; subtracting
while `background` is still `None` (unreachable after a first call)
raises `TypeError`. -/
def DynamicBackground.subtract_background (alg : List ℚ → ℚ)
    (s : DynamicBackgroundState) (image : Frame) :
    Except PyError (DynamicBackgroundState × Frame) :=
  if s.sample_every_n_frames = 0 then Except.error PyError.ZeroDivisionErr
  else
    let s1 := if s.curr_image % s.sample_every_n_frames = 0 then
        DynamicBackground.compute_background alg
          { s with frame_collection :=
              dequeAppend s.num_sample_frames s.frame_collection image }
      else s
    let s2 := { s1 with curr_image := s.curr_image + 1 }
    match s1.background with
    | none => Except.error PyError.TypeErr
    | some bg => Except.ok (s2, exprSubtract s.polarity image bg)

/-! ## `DynamicBackgroundMP` (offloaded streaming engine) -/

/-- Shared and producer-side state of a `DynamicBackgroundMP` instance:
the shared ring buffer `image_store`, the shared published `background`
(`RawArray(c_float, width*height)`, zero-initialized), and the
producer-owned counter and configuration. -/
structure DynamicBackgroundMPState where
  width : ℕ
  height : ℕ
  num_images : ℕ
  every_n_image : ℕ
  counter : ℕ
  image_store : BoundedQueue
  background : FrameData
  polarity : Polarity

/-- One iteration of the body of `DynamicBackgroundMP.compute_background`
(the worker's polling loop): the source evaluates
`image_store.get_data().transpose((1,2,0))` BEFORE the
`if data is not None` guard, so when the buffer is empty (`get_data()`
returns `None`) the attribute access `None.transpose` raises
`AttributeError`; with at least one frame present the guard is `True`,
the aggregation algorithm runs over the available frames and its result
overwrites the published background. -/
def DynamicBackgroundMP.compute_background_step (alg : List ℚ → ℚ)
    (image_store : BoundedQueue) : Except PyError FrameData :=
  match image_store.get_data with
  | none => Except.error PyError.AttributeErr
  | some frames =>
      Except.ok (fun r c => alg (frames.map (fun f => f r c)))

/-- `DynamicBackgroundMP.subtract_background` (the producer path): every
`every_n_image`-th call appends the raw frame to the shared ring buffer
and, on the very first call only, additionally seeds the shared published
background with the raw frame (`self.background[:] = image.flatten()`);
then reads the published background (`get_background`: float32
height×width view) and returns `np.maximum(0, polarity.value * (image -
bckg))` on the RAW frame. -/
def DynamicBackgroundMP.subtract_background (s : DynamicBackgroundMPState)
    (image : Frame) : Except PyError (DynamicBackgroundMPState × Frame) :=
  if s.every_n_image = 0 then Except.error PyError.ZeroDivisionErr
  else
    let s1 := if s.counter % s.every_n_image = 0 then
        let withStore := { s with image_store := s.image_store.append image.data }
        if s.counter = 0 then { withStore with background := image.data } else withStore
      else s
    let s2 := { s1 with counter := s.counter + 1 }
    let bckg : Frame := ⟨s.height, s.width, DType.f32, s1.background⟩
    Except.ok (s2, exprSubtract s.polarity image bckg)


/-! ## Claims C3–C6 -/

/-- C3 (code bug): the worker-loop body of
`DynamicBackgroundMP.compute_background` evaluates
`get_data().transpose((1,2,0))` BEFORE the `if data is not None` guard,
so polling an empty ring buffer raises `AttributeError` (`None` has no
`transpose`) instead of skipping; with at least one frame present the
aggregation runs and yields the new published background. -/
theorem computeBackground_crashes_on_empty_buffer :
    DynamicBackgroundMP.compute_background_step modeVal (BoundedQueue.new 5)
      = Except.error PyError.AttributeErr
    ∧ (DynamicBackgroundMP.compute_background_step modeVal
        ((BoundedQueue.new 5).append (fun _ _ => 3))).toOption.map (fun f => f 0 0)
      = some 3 :=
  ⟨rfl, by decide⟩

/-- C4 (code bug): on a 10-frame video with 3 chunks the chunk index
`image_count // (numframes // num_chunks)` over the first ten calls is
0,0,0,1,1,1,2,2,2,3 — monotone, but UNCLAMPED: at `image_count = 9` (a
legitimate tenth frame of the video) it reaches 3 > num_chunks − 1 = 2
and `subtract_background` raises `IndexError` instead of selecting the
last chunk. -/
theorem staticBackgroundChunked_index_unclamped :
    ((List.range 10).map (fun k => k / ((10:ℕ) / 3))) = [0,0,0,1,1,1,2,2,2,3]
    ∧ StaticBackgroundChunked.subtract_background
        { height := 1, width := 1, numframes := 10, num_chunks := 3, image_count := 9,
          background := fun _ _ _ => 0, polarity := Polarity.BRIGHT_ON_DARK }
        ⟨1, 1, DType.u8, fun _ _ => 100⟩
      = Except.error PyError.IndexErr :=
  ⟨by decide, rfl⟩

/-- C5 (code bug): a failed frame read during sampling is NOT surfaced:
with a reader that fails on every index, `sample_frames_evenly` still
returns normally and every sample slot silently holds the uninitialized
`np.empty` contents (here 37); and `InpaintBackground.get_frame` raises
`UnboundLocalError` (the constructed `RuntimeError` is never raised)
rather than surfacing the decode error. -/
theorem sample_frames_failure_swallowed :
    StaticBackground.sample_frames_evenly 2 2 1000 500 (fun _ => none) (fun _ _ _ => 37)
      = Except.ok { height := 2, width := 2, k := 500, dtype := DType.f32,
                    data := fun _ _ _ => (37:ℚ) }
    ∧ InpaintBackground.get_frame (fun _ => none) 0 = Except.error PyError.UnboundLocalErr :=
  ⟨rfl, rfl⟩

/-- C6 counterexample: sampling 500 frames evenly from a 1000-frame video,
the code's index at position `i = 250` is the truncated value 500, while
the claim's rounded value `round(250 · 999/499)` is 501. -/
theorem sampleIndices_truncates_not_rounds :
    sampleIndices 1000 500 250 = 500
    ∧ round ((250 : ℚ) * 999 / 499) = 501
    ∧ (500 : ℤ) ≠ 501 := by
  refine ⟨?_, ?_, by decide⟩
  · unfold sampleIndices truncQ
    rw [if_neg (by norm_num), if_pos (by positivity)]
    rw [show (((250:ℕ):ℚ)) * (((1000:ℕ):ℚ) - 1) / (((500:ℕ):ℚ) - 1) = 249750 / 499 by
      norm_num]
    rw [Int.floor_eq_iff]
    constructor <;> norm_num
  · rw [round_eq]
    rw [show (250:ℚ) * 999 / 499 + 1/2 = 499999 / 998 by norm_num]
    rw [Int.floor_eq_iff]
    constructor <;> norm_num

/-- C6 amended: the sampler's indices are the linear interpolation from 0
to `numframes − 1` inclusive TRUNCATED toward zero (not rounded), each
lying in `[0, numframes − 1]`. -/
theorem sampleIndices_floor_range (N n i : ℕ) (hN : 1 ≤ N) (hn : 2 ≤ n) (hi : i < n) :
    sampleIndices N n i = ⌊(i : ℚ) * ((N : ℚ) - 1) / ((n : ℚ) - 1)⌋
    ∧ 0 ≤ sampleIndices N n i
    ∧ sampleIndices N n i ≤ (N : ℤ) - 1 := by
  have hNq : (1:ℚ) ≤ (N:ℚ) := by exact_mod_cast hN
  have hnq : (2:ℚ) ≤ (n:ℚ) := by exact_mod_cast hn
  have hiq : (i:ℚ) ≤ (n:ℚ) - 1 := by
    have hi1 : (i:ℚ) + 1 ≤ (n:ℚ) := by exact_mod_cast hi
    linarith
  have hx0 : 0 ≤ (i : ℚ) * ((N : ℚ) - 1) / ((n : ℚ) - 1) := by
    apply div_nonneg
    · apply mul_nonneg (Nat.cast_nonneg i)
      linarith
    · linarith
  have heq : sampleIndices N n i = ⌊(i : ℚ) * ((N : ℚ) - 1) / ((n : ℚ) - 1)⌋ := by
    unfold sampleIndices truncQ
    rw [if_neg (by omega), if_pos hx0]
  refine ⟨heq, ?_, ?_⟩
  · rw [heq]
    exact Int.floor_nonneg.mpr hx0
  · rw [heq]
    have hle : (i : ℚ) * ((N : ℚ) - 1) / ((n : ℚ) - 1) ≤ (N : ℚ) - 1 := by
      rw [div_le_iff (by linarith)]
      have h1 : (i:ℚ) * ((N:ℚ) - 1) ≤ ((n:ℚ) - 1) * ((N:ℚ) - 1) :=
        mul_le_mul_of_nonneg_right hiq (by linarith)
      linarith [mul_comm ((n:ℚ) - 1) ((N:ℚ) - 1)]
    calc ⌊(i : ℚ) * ((N : ℚ) - 1) / ((n : ℚ) - 1)⌋
        ≤ ⌊(N:ℚ) - 1⌋ := Int.floor_le_floor hle
      _ = (N:ℤ) - 1 := by
          rw [show ((N:ℚ) - 1) = (((N:ℤ) - 1 : ℤ) : ℚ) by push_cast; ring, Int.floor_intCast]

/-- Witness for the amended C6 at the claim's own instance
`N = 1000, n = 500` at `i = 250`. -/
theorem sampleIndices_floor_range_witness :
    (1:ℕ) ≤ 1000 ∧ (2:ℕ) ≤ 500 ∧ (250:ℕ) < 500
    ∧ (sampleIndices 1000 500 250 = ⌊(250 : ℚ) * ((1000 : ℚ) - 1) / ((500 : ℚ) - 1)⌋
      ∧ 0 ≤ sampleIndices 1000 500 250
      ∧ sampleIndices 1000 500 250 ≤ (1000 : ℤ) - 1) :=
  ⟨by norm_num, by norm_num, by norm_num,
    sampleIndices_floor_range 1000 500 250 (by norm_num) (by norm_num) (by norm_num)⟩


/-! ## Claim C8 -/

/-- C8 counterexample: on the very first producer call (`counter = 0`),
`subtract_background` itself writes the shared published background,
seeding it with the raw frame — the producer is a second writer of the
field the claim reserves to the worker. -/
theorem dynamicMP_producer_writes_background :
    ((DynamicBackgroundMP.subtract_background
        { width := 1, height := 1, num_images := 5, every_n_image := 2, counter := 0,
          image_store := BoundedQueue.new 5, background := zeroData,
          polarity := Polarity.BRIGHT_ON_DARK }
        ⟨1, 1, DType.f32, fun _ _ => 1⟩).toOption.map (fun p => p.1.background 0 0))
      = some 1
    ∧ zeroData 0 0 = (0:ℚ)
    ∧ (1:ℚ) ≠ 0 :=
  ⟨rfl, rfl, by norm_num⟩

/-- C8 amended: on every producer call after the first (`counter ≠ 0`),
`subtract_background` mutates only the ring buffer and the producer-owned
counter — the published background and every other field are unchanged —
and the ring buffer is written only on the sampling calls
(`counter % every_n_image == 0`).  Only the very first call additionally
seeds the published background with the raw frame. -/
theorem dynamicMP_producer_preserves_background (s : DynamicBackgroundMPState)
    (image : Frame) (h0 : s.counter ≠ 0) (he : s.every_n_image ≠ 0) :
    ∃ s2 out, DynamicBackgroundMP.subtract_background s image = Except.ok (s2, out)
    ∧ s2.background = s.background
    ∧ s2.width = s.width ∧ s2.height = s.height
    ∧ s2.num_images = s.num_images ∧ s2.every_n_image = s.every_n_image
    ∧ s2.polarity = s.polarity
    ∧ s2.counter = s.counter + 1
    ∧ (s.counter % s.every_n_image ≠ 0 → s2.image_store = s.image_store)
    ∧ (s.counter % s.every_n_image = 0 →
        s2.image_store = s.image_store.append image.data) := by
  by_cases hm : s.counter % s.every_n_image = 0
  · have hres : DynamicBackgroundMP.subtract_background s image
        = Except.ok ({ s with image_store := s.image_store.append image.data,
                              counter := s.counter + 1 },
          exprSubtract s.polarity image ⟨s.height, s.width, DType.f32, s.background⟩) := by
      simp [DynamicBackgroundMP.subtract_background, he, hm, h0]
    exact ⟨_, _, hres, rfl, rfl, rfl, rfl, rfl, rfl, rfl,
      fun hc => absurd hm hc, fun _ => rfl⟩
  · have hres : DynamicBackgroundMP.subtract_background s image
        = Except.ok ({ s with counter := s.counter + 1 },
          exprSubtract s.polarity image ⟨s.height, s.width, DType.f32, s.background⟩) := by
      simp [DynamicBackgroundMP.subtract_background, he, hm]
    exact ⟨_, _, hres, rfl, rfl, rfl, rfl, rfl, rfl, rfl,
      fun _ => rfl, fun hc => absurd hc hm⟩

/-- Witness for the amended C8: a non-first producer call (`counter = 3`,
sampling period 2). -/
theorem dynamicMP_producer_preserves_background_witness :
    ({ width := 1, height := 1, num_images := 5, every_n_image := 2, counter := 3,
       image_store := BoundedQueue.new 5, background := zeroData,
       polarity := Polarity.BRIGHT_ON_DARK } : DynamicBackgroundMPState).counter ≠ 0
    ∧ ({ width := 1, height := 1, num_images := 5, every_n_image := 2, counter := 3,
         image_store := BoundedQueue.new 5, background := zeroData,
         polarity := Polarity.BRIGHT_ON_DARK } : DynamicBackgroundMPState).every_n_image ≠ 0
    ∧ (∃ s2 out, DynamicBackgroundMP.subtract_background
          { width := 1, height := 1, num_images := 5, every_n_image := 2, counter := 3,
            image_store := BoundedQueue.new 5, background := zeroData,
            polarity := Polarity.BRIGHT_ON_DARK }
          ⟨1, 1, DType.f32, fun _ _ => 4⟩ = Except.ok (s2, out)
        ∧ s2.background = ({ width := 1, height := 1, num_images := 5, every_n_image := 2,
                             counter := 3, image_store := BoundedQueue.new 5,
                             background := zeroData,
                             polarity := Polarity.BRIGHT_ON_DARK } :
                             DynamicBackgroundMPState).background
        ∧ s2.width = 1 ∧ s2.height = 1
        ∧ s2.num_images = 5 ∧ s2.every_n_image = 2
        ∧ s2.polarity = Polarity.BRIGHT_ON_DARK
        ∧ s2.counter = 3 + 1
        ∧ ((3:ℕ) % 2 ≠ 0 → s2.image_store = BoundedQueue.new 5)
        ∧ ((3:ℕ) % 2 = 0 →
            s2.image_store = (BoundedQueue.new 5).append
              (⟨1, 1, DType.f32, fun _ _ => (4:ℚ)⟩ : Frame).data)) :=
  ⟨by norm_num, by norm_num,
    dynamicMP_producer_preserves_background
      { width := 1, height := 1, num_images := 5, every_n_image := 2, counter := 3,
        image_store := BoundedQueue.new 5, background := zeroData,
        polarity := Polarity.BRIGHT_ON_DARK }
      ⟨1, 1, DType.f32, fun _ _ => 4⟩ (by norm_num) (by norm_num)⟩


/-! ## Claim C7 -/

/-- Spec-side definition, stated from the spec's own words (§4.3 / §6):
the shared subtraction arithmetic
`out = max(0, polarity_sign × (normalize(frame) − background))`, in which
the incoming frame is normalized to single-precision grayscale BEFORE the
arithmetic. -/
def specSubtractNormalized (p : Polarity) (frame background : Frame) : Frame :=
  { height := (im2single (im2gray frame)).height,
    width := (im2single (im2gray frame)).width,
    dtype := (im2single (im2gray frame)).dtype.promote background.dtype,
    data := fun r c =>
      max 0 ((p.value : ℚ) *
        ((im2single (im2gray frame)).data r c - background.data r c)) }

/-- C7 counterexample: a `DynamicBackgroundMP` producer call at
`counter = 1` with a raw uint8 constant-255 frame against the zeroed
published background returns 255 at pixel (0,0) — the raw frame entered
the arithmetic.  Had the frame been normalized to [0,1] first, as the
claim asserts for every path, the result against the same zero background
would have been 1. -/
theorem dynamicBackground_skips_normalization :
    ((DynamicBackgroundMP.subtract_background
        { width := 1, height := 1, num_images := 5, every_n_image := 2, counter := 1,
          image_store := BoundedQueue.new 5, background := zeroData,
          polarity := Polarity.BRIGHT_ON_DARK }
        ⟨1, 1, DType.u8, fun _ _ => 255⟩).toOption.map (fun q => q.2.data 0 0))
      = some 255
    ∧ (specSubtractNormalized Polarity.BRIGHT_ON_DARK ⟨1, 1, DType.u8, fun _ _ => 255⟩
        ⟨1, 1, DType.f32, zeroData⟩).data 0 0 = 1
    ∧ (255:ℚ) ≠ 1 := by
  refine ⟨?_, ?_, by norm_num⟩
  · simp only [DynamicBackgroundMP.subtract_background, exprSubtract, Polarity.value,
      zeroData]
    norm_num
    refine ⟨_, _, rfl, ?_⟩
    show max (0:ℚ) ((255:ℚ) - zeroData 0 0) = 255
    have hz : (255:ℚ) - zeroData 0 0 = 255 := by norm_num [zeroData]
    rw [hz]
    exact max_eq_right (by norm_num)
  · norm_num [specSubtractNormalized, im2single, im2gray, Polarity.value, zeroData]

/-- C7 amended: every subtraction path EXCEPT the two dynamic streaming
variants normalizes the incoming frame to single-precision grayscale
before the subtraction arithmetic — their results coincide exactly with
the spec-side normalized arithmetic.  `DynamicBackground` and
`DynamicBackgroundMP` instead feed the RAW incoming frame to the
arithmetic (the module-level TODO acknowledges the missing conversion). -/
theorem subtraction_normalization_by_variant :
    (∀ p bg img, InpaintBackground.subtract_background p bg img
        = specSubtractNormalized p img bg)
    ∧ (∀ p bg img, StaticBackground.subtract_background p bg img
        = specSubtractNormalized p img bg)
    ∧ (∀ s img, (((BackroundImage.subtract_background s img).1).heap
          s.imageSingleAddr).data
        = (specSubtractNormalized s.polarity img (s.heap s.backgroundAddr)).data)
    ∧ (∀ s img out s2, StaticBackgroundChunked.subtract_background s img
          = Except.ok (out, s2) →
        out.data = (specSubtractNormalized s.polarity img
          (⟨s.height, s.width, DType.f32, fun r c => s.background r c
            (s.image_count / (s.numframes / s.num_chunks))⟩ : Frame)).data)
    ∧ (∀ alg s img s2 out, DynamicBackground.subtract_background alg s img
          = Except.ok (s2, out) →
        ∃ bg, s2.background = some bg ∧ out = exprSubtract s.polarity img bg)
    ∧ (∀ s img s2 out, DynamicBackgroundMP.subtract_background s img
          = Except.ok (s2, out) →
        out = exprSubtract s.polarity img
          (⟨s.height, s.width, DType.f32, s2.background⟩ : Frame)) := by
  refine ⟨?_, ?_, ?_, ?_, ?_, ?_⟩
  · intro p bg img
    rfl
  · intro p bg img
    rfl
  · intro s img
    funext r c
    simp only [BackroundImage.subtract_background, writeInto, Function.update_same,
      specSubtractNormalized]
    exact max_comm _ _
  · intro s img out s2 h
    unfold StaticBackgroundChunked.subtract_background at h
    by_cases hz : s.numframes / s.num_chunks = 0
    · rw [if_pos hz] at h
      exact absurd h (by simp)
    · rw [if_neg hz] at h
      by_cases hc : s.image_count / (s.numframes / s.num_chunks) < s.num_chunks
      · simp only [hc, if_true, Except.ok.injEq, Prod.mk.injEq] at h
        rw [← h.1]
        rfl
      · simp only [hc, if_false] at h
        exact absurd h (by simp)
  · intro alg s img s2 out h
    unfold DynamicBackground.subtract_background at h
    by_cases hz : s.sample_every_n_frames = 0
    · rw [if_pos hz] at h
      exact absurd h (by simp)
    · rw [if_neg hz] at h
      by_cases hm : s.curr_image % s.sample_every_n_frames = 0
      · simp only [hm, if_true, DynamicBackground.compute_background,
          Except.ok.injEq, Prod.mk.injEq] at h
        exact ⟨aggregate alg (stackFrames (dequeAppend s.num_sample_frames
          s.frame_collection img)), by rw [← h.1], h.2.symm⟩
      · simp only [hm, if_false] at h
        cases hbg : s.background with
        | none =>
          rw [hbg] at h
          exact absurd h (by simp)
        | some bg =>
          rw [hbg] at h
          simp only [Except.ok.injEq, Prod.mk.injEq] at h
          refine ⟨bg, ?_, h.2.symm⟩
          rw [← h.1]
  · intro s img s2 out h
    unfold DynamicBackgroundMP.subtract_background at h
    by_cases hz : s.every_n_image = 0
    · rw [if_pos hz] at h
      exact absurd h (by simp)
    · rw [if_neg hz] at h
      by_cases hm : s.counter % s.every_n_image = 0
      · by_cases h0 : s.counter = 0
        · simp only [hm, if_true, h0, if_true, Except.ok.injEq, Prod.mk.injEq] at h
          rw [← h.2, ← h.1]
        · simp only [hm, if_true, h0, if_false, Except.ok.injEq, Prod.mk.injEq] at h
          rw [← h.2, ← h.1]
      · simp only [hm, if_false, Except.ok.injEq, Prod.mk.injEq] at h
        rw [← h.2, ← h.1]


set_option maxHeartbeats 2000000 in
/-- Witness for the amended C7: each variant's conjunct instantiated at a
concrete uint8 constant-255 frame against a zeroed float32 background. -/
theorem subtraction_normalization_by_variant_witness :
    (InpaintBackground.subtract_background Polarity.BRIGHT_ON_DARK
        ⟨1, 1, DType.f32, zeroData⟩ ⟨1, 1, DType.u8, fun _ _ => 255⟩
      = specSubtractNormalized Polarity.BRIGHT_ON_DARK
          ⟨1, 1, DType.u8, fun _ _ => 255⟩ ⟨1, 1, DType.f32, zeroData⟩)
    ∧ (StaticBackground.subtract_background Polarity.BRIGHT_ON_DARK
        ⟨1, 1, DType.f32, zeroData⟩ ⟨1, 1, DType.u8, fun _ _ => 255⟩
      = specSubtractNormalized Polarity.BRIGHT_ON_DARK
          ⟨1, 1, DType.u8, fun _ _ => 255⟩ ⟨1, 1, DType.f32, zeroData⟩)
    ∧ ((((BackroundImage.subtract_background
          (BackroundImage.initializeState ⟨1, 1, DType.u8, fun _ _ => 100⟩
            Polarity.BRIGHT_ON_DARK)
          ⟨1, 1, DType.u8, fun _ _ => 255⟩).1).heap
          (BackroundImage.initializeState ⟨1, 1, DType.u8, fun _ _ => 100⟩
            Polarity.BRIGHT_ON_DARK).imageSingleAddr).data
        = (specSubtractNormalized
            (BackroundImage.initializeState ⟨1, 1, DType.u8, fun _ _ => 100⟩
              Polarity.BRIGHT_ON_DARK).polarity
            ⟨1, 1, DType.u8, fun _ _ => 255⟩
            ((BackroundImage.initializeState ⟨1, 1, DType.u8, fun _ _ => 100⟩
                Polarity.BRIGHT_ON_DARK).heap
              (BackroundImage.initializeState ⟨1, 1, DType.u8, fun _ _ => 100⟩
                Polarity.BRIGHT_ON_DARK).backgroundAddr)).data)
    ∧ (∃ out s2, StaticBackgroundChunked.subtract_background
          { height := 1, width := 1, numframes := 10, num_chunks := 3, image_count := 0,
            background := fun _ _ _ => 0, polarity := Polarity.BRIGHT_ON_DARK }
          ⟨1, 1, DType.u8, fun _ _ => 255⟩ = Except.ok (out, s2)
        ∧ out.data = (specSubtractNormalized Polarity.BRIGHT_ON_DARK
            ⟨1, 1, DType.u8, fun _ _ => 255⟩
            (⟨1, 1, DType.f32, fun r c => (fun _ _ _ => (0:ℚ)) r c (0 / (10 / 3))⟩
              : Frame)).data)
    ∧ (∃ s2 out bg, DynamicBackground.subtract_background modeVal
          { num_sample_frames := 5, sample_every_n_frames := 2, frame_collection := [],
            curr_image := 0, background := none, polarity := Polarity.BRIGHT_ON_DARK }
          ⟨1, 1, DType.u8, fun _ _ => 255⟩ = Except.ok (s2, out)
        ∧ s2.background = some bg
        ∧ out = exprSubtract Polarity.BRIGHT_ON_DARK ⟨1, 1, DType.u8, fun _ _ => 255⟩ bg)
    ∧ (∃ s2 out, DynamicBackgroundMP.subtract_background
          { width := 1, height := 1, num_images := 5, every_n_image := 2, counter := 1,
            image_store := BoundedQueue.new 5, background := zeroData,
            polarity := Polarity.BRIGHT_ON_DARK }
          ⟨1, 1, DType.u8, fun _ _ => 255⟩ = Except.ok (s2, out)
        ∧ out = exprSubtract Polarity.BRIGHT_ON_DARK ⟨1, 1, DType.u8, fun _ _ => 255⟩
            (⟨1, 1, DType.f32, s2.background⟩ : Frame)) := by
  obtain ⟨h1, h2, h3, h4, h5, h6⟩ := subtraction_normalization_by_variant
  refine ⟨h1 _ _ _, h2 _ _ _, h3 _ _, ?_, ?_, ?_⟩
  · exact ⟨_, _, rfl, h4
      { height := 1, width := 1, numframes := 10, num_chunks := 3, image_count := 0,
        background := fun _ _ _ => 0, polarity := Polarity.BRIGHT_ON_DARK }
      ⟨1, 1, DType.u8, fun _ _ => 255⟩ _ _ rfl⟩
  · obtain ⟨bg, hbg, hout⟩ := h5 modeVal
      { num_sample_frames := 5, sample_every_n_frames := 2, frame_collection := [],
        curr_image := 0, background := none, polarity := Polarity.BRIGHT_ON_DARK }
      ⟨1, 1, DType.u8, fun _ _ => 255⟩ _ _ rfl
    exact ⟨_, _, bg, rfl, hbg, hout⟩
  · exact ⟨_, _, rfl, h6
      { width := 1, height := 1, num_images := 5, every_n_image := 2, counter := 1,
        image_store := BoundedQueue.new 5, background := zeroData,
        polarity := Polarity.BRIGHT_ON_DARK }
      ⟨1, 1, DType.u8, fun _ _ => 255⟩ _ _ rfl⟩

/-! ## Claim C10 -/

/-- C10: `BackroundImage.subtract_background` always returns the address
of the same preallocated `image_single` buffer — two successive calls
return the same reference — the second call overwrites that buffer with
contents determined by the second frame alone (the first call's result
does not survive), and the stored background is never modified. -/
theorem backroundImage_subtract_aliasing (s : BackroundImageState) (f1 f2 : Frame)
    (hne : s.backgroundAddr ≠ s.imageSingleAddr) :
    (BackroundImage.subtract_background s f1).2 = s.imageSingleAddr
    ∧ (BackroundImage.subtract_background
        (BackroundImage.subtract_background s f1).1 f2).2 = s.imageSingleAddr
    ∧ ((BackroundImage.subtract_background
        (BackroundImage.subtract_background s f1).1 f2).1).heap s.backgroundAddr
      = s.heap s.backgroundAddr
    ∧ ((BackroundImage.subtract_background
        (BackroundImage.subtract_background s f1).1 f2).1).heap s.imageSingleAddr
      = ((BackroundImage.subtract_background s f2).1).heap s.imageSingleAddr := by
  refine ⟨rfl, rfl, ?_, ?_⟩
  · simp only [BackroundImage.subtract_background]
    rw [Function.update_noteq hne, Function.update_noteq hne]
  · simp only [BackroundImage.subtract_background, writeInto]
    rw [Function.update_same, Function.update_same, Function.update_same,
      Function.update_noteq hne]

/-- Witness for C10: state built by `initialize` (background at address 0,
`image_single` at the distinct address 1) and two constant frames. -/
theorem backroundImage_subtract_aliasing_witness :
    (BackroundImage.initializeState ⟨1, 1, DType.u8, fun _ _ => 100⟩
        Polarity.BRIGHT_ON_DARK).backgroundAddr
      ≠ (BackroundImage.initializeState ⟨1, 1, DType.u8, fun _ _ => 100⟩
        Polarity.BRIGHT_ON_DARK).imageSingleAddr
    ∧ ((BackroundImage.subtract_background
          (BackroundImage.initializeState ⟨1, 1, DType.u8, fun _ _ => 100⟩
            Polarity.BRIGHT_ON_DARK)
          ⟨1, 1, DType.u8, fun _ _ => 200⟩).2
        = (BackroundImage.initializeState ⟨1, 1, DType.u8, fun _ _ => 100⟩
            Polarity.BRIGHT_ON_DARK).imageSingleAddr
      ∧ (BackroundImage.subtract_background
          (BackroundImage.subtract_background
            (BackroundImage.initializeState ⟨1, 1, DType.u8, fun _ _ => 100⟩
              Polarity.BRIGHT_ON_DARK)
            ⟨1, 1, DType.u8, fun _ _ => 200⟩).1
          ⟨1, 1, DType.u8, fun _ _ => 50⟩).2
        = (BackroundImage.initializeState ⟨1, 1, DType.u8, fun _ _ => 100⟩
            Polarity.BRIGHT_ON_DARK).imageSingleAddr
      ∧ ((BackroundImage.subtract_background
          (BackroundImage.subtract_background
            (BackroundImage.initializeState ⟨1, 1, DType.u8, fun _ _ => 100⟩
              Polarity.BRIGHT_ON_DARK)
            ⟨1, 1, DType.u8, fun _ _ => 200⟩).1
          ⟨1, 1, DType.u8, fun _ _ => 50⟩).1).heap
          (BackroundImage.initializeState ⟨1, 1, DType.u8, fun _ _ => 100⟩
            Polarity.BRIGHT_ON_DARK).backgroundAddr
        = (BackroundImage.initializeState ⟨1, 1, DType.u8, fun _ _ => 100⟩
            Polarity.BRIGHT_ON_DARK).heap
          (BackroundImage.initializeState ⟨1, 1, DType.u8, fun _ _ => 100⟩
            Polarity.BRIGHT_ON_DARK).backgroundAddr
      ∧ ((BackroundImage.subtract_background
          (BackroundImage.subtract_background
            (BackroundImage.initializeState ⟨1, 1, DType.u8, fun _ _ => 100⟩
              Polarity.BRIGHT_ON_DARK)
            ⟨1, 1, DType.u8, fun _ _ => 200⟩).1
          ⟨1, 1, DType.u8, fun _ _ => 50⟩).1).heap
          (BackroundImage.initializeState ⟨1, 1, DType.u8, fun _ _ => 100⟩
            Polarity.BRIGHT_ON_DARK).imageSingleAddr
        = ((BackroundImage.subtract_background
            (BackroundImage.initializeState ⟨1, 1, DType.u8, fun _ _ => 100⟩
              Polarity.BRIGHT_ON_DARK)
            ⟨1, 1, DType.u8, fun _ _ => 50⟩).1).heap
          (BackroundImage.initializeState ⟨1, 1, DType.u8, fun _ _ => 100⟩
            Polarity.BRIGHT_ON_DARK).imageSingleAddr) :=
  ⟨by decide,
    backroundImage_subtract_aliasing
      (BackroundImage.initializeState ⟨1, 1, DType.u8, fun _ _ => 100⟩ Polarity.BRIGHT_ON_DARK)
      ⟨1, 1, DType.u8, fun _ _ => 200⟩ ⟨1, 1, DType.u8, fun _ _ => 50⟩ (by decide)⟩


/-! ## Claim C1 -/

/-- C1 counterexample: `DynamicBackground` (a background-model variant,
whose `initialize()` only sets the flag) fed a float64 frame returns a
float64 result, not float32: its subtraction path never converts the
incoming frame, so the output dtype follows raw numpy promotion. -/
theorem dynamicBackground_output_not_f32 :
    ((DynamicBackground.subtract_background modeVal
        { num_sample_frames := 5, sample_every_n_frames := 2, frame_collection := [],
          curr_image := 0, background := none, polarity := Polarity.BRIGHT_ON_DARK }
        ⟨1, 1, DType.f64, fun _ _ => 1/2⟩).toOption.map (fun q => q.2.dtype))
      = some DType.f64
    ∧ DType.f64 ≠ DType.f32 := by
  refine ⟨?_, by decide⟩
  simp [DynamicBackground.subtract_background, DynamicBackground.compute_background,
    dequeAppend, aggregate, stackFrames, exprSubtract, DType.promote]
  exact ⟨_, _, rfl, rfl⟩

/-- C1 amended: for every variant, `subtract_background` preserves the
input's height and width and returns a frame with every element ≥ 0 (for
the clamp-free no-subtraction variant this needs nonnegative input
pixels); the result is float32 for every variant EXCEPT the two dynamic
streaming ones, whose outputs follow numpy promotion of the raw input
dtype instead.  The float32 background hypotheses of the static variants
are established by their initializers (`initialize` builds float32
backgrounds), as the `BackroundImage.initializeState` conjunct shows. -/
theorem subtract_output_shape_dtype_nonneg :
    (∀ img : Frame, (∀ r c, 0 ≤ img.data r c) →
        (NoBackgroundSub.subtract_background img).height = img.height
      ∧ (NoBackgroundSub.subtract_background img).width = img.width
      ∧ (NoBackgroundSub.subtract_background img).dtype = DType.f32
      ∧ ∀ r c, 0 ≤ (NoBackgroundSub.subtract_background img).data r c)
    ∧ (∀ img p, ((BackroundImage.initializeState img p).heap
          (BackroundImage.initializeState img p).imageSingleAddr).dtype = DType.f32
        ∧ ((BackroundImage.initializeState img p).heap
            (BackroundImage.initializeState img p).imageSingleAddr).height = img.height
        ∧ ((BackroundImage.initializeState img p).heap
            (BackroundImage.initializeState img p).imageSingleAddr).width = img.width)
    ∧ (∀ s img, (s.heap s.imageSingleAddr).dtype = DType.f32 →
        (s.heap s.imageSingleAddr).height = img.height →
        (s.heap s.imageSingleAddr).width = img.width →
          (((BackroundImage.subtract_background s img).1).heap
            (BackroundImage.subtract_background s img).2).height = img.height
        ∧ (((BackroundImage.subtract_background s img).1).heap
            (BackroundImage.subtract_background s img).2).width = img.width
        ∧ (((BackroundImage.subtract_background s img).1).heap
            (BackroundImage.subtract_background s img).2).dtype = DType.f32
        ∧ ∀ r c, 0 ≤ (((BackroundImage.subtract_background s img).1).heap
            (BackroundImage.subtract_background s img).2).data r c)
    ∧ (∀ p bg img, bg.dtype = DType.f32 →
        (InpaintBackground.subtract_background p bg img).height = img.height
      ∧ (InpaintBackground.subtract_background p bg img).width = img.width
      ∧ (InpaintBackground.subtract_background p bg img).dtype = DType.f32
      ∧ ∀ r c, 0 ≤ (InpaintBackground.subtract_background p bg img).data r c)
    ∧ (∀ p bg img, bg.dtype = DType.f32 →
        (StaticBackground.subtract_background p bg img).height = img.height
      ∧ (StaticBackground.subtract_background p bg img).width = img.width
      ∧ (StaticBackground.subtract_background p bg img).dtype = DType.f32
      ∧ ∀ r c, 0 ≤ (StaticBackground.subtract_background p bg img).data r c)
    ∧ (∀ s img out s2, StaticBackgroundChunked.subtract_background s img
          = Except.ok (out, s2) →
        out.height = img.height ∧ out.width = img.width ∧ out.dtype = DType.f32
        ∧ ∀ r c, 0 ≤ out.data r c)
    ∧ (∀ alg s img s2 out, DynamicBackground.subtract_background alg s img
          = Except.ok (s2, out) →
        out.height = img.height ∧ out.width = img.width ∧ ∀ r c, 0 ≤ out.data r c)
    ∧ (∀ s img s2 out, DynamicBackgroundMP.subtract_background s img
          = Except.ok (s2, out) →
        out.height = img.height ∧ out.width = img.width ∧ ∀ r c, 0 ≤ out.data r c) := by
  refine ⟨?_, ?_, ?_, ?_, ?_, ?_, ?_, ?_⟩
  · intro img hnn
    refine ⟨rfl, rfl, rfl, fun r c => ?_⟩
    show 0 ≤ (if img.dtype = DType.u8 then img.data r c / 255 else img.data r c)
    by_cases hu : img.dtype = DType.u8
    · rw [if_pos hu]
      exact div_nonneg (hnn r c) (by norm_num)
    · rw [if_neg hu]
      exact hnn r c
  · intro img p
    exact ⟨rfl, rfl, rfl⟩
  · intro s img hdt hh hw
    simp only [BackroundImage.subtract_background, writeInto, Function.update_same]
    exact ⟨hh, hw, hdt, fun r c => le_max_right _ 0⟩
  · intro p bg img hdt
    refine ⟨rfl, rfl, ?_, fun r c => le_max_left 0 _⟩
    show (DType.f32.promote bg.dtype) = DType.f32
    rw [hdt]
    decide
  · intro p bg img hdt
    refine ⟨rfl, rfl, ?_, fun r c => le_max_left 0 _⟩
    show (DType.f32.promote bg.dtype) = DType.f32
    rw [hdt]
    decide
  · intro s img out s2 h
    unfold StaticBackgroundChunked.subtract_background at h
    by_cases hz : s.numframes / s.num_chunks = 0
    · rw [if_pos hz] at h
      exact absurd h (by simp)
    · rw [if_neg hz] at h
      by_cases hc : s.image_count / (s.numframes / s.num_chunks) < s.num_chunks
      · simp only [hc, if_true, Except.ok.injEq, Prod.mk.injEq] at h
        rw [← h.1]
        exact ⟨rfl, rfl, rfl, fun r c => le_max_left 0 _⟩
      · simp only [hc, if_false] at h
        exact absurd h (by simp)
  · intro alg s img s2 out h
    unfold DynamicBackground.subtract_background at h
    by_cases hz : s.sample_every_n_frames = 0
    · rw [if_pos hz] at h
      exact absurd h (by simp)
    · rw [if_neg hz] at h
      by_cases hm : s.curr_image % s.sample_every_n_frames = 0
      · simp only [hm, if_true, DynamicBackground.compute_background,
          Except.ok.injEq, Prod.mk.injEq] at h
        rw [← h.2]
        exact ⟨rfl, rfl, fun r c => le_max_left 0 _⟩
      · simp only [hm, if_false] at h
        cases hbg : s.background with
        | none =>
          rw [hbg] at h
          exact absurd h (by simp)
        | some bg =>
          rw [hbg] at h
          simp only [Except.ok.injEq, Prod.mk.injEq] at h
          rw [← h.2]
          exact ⟨rfl, rfl, fun r c => le_max_left 0 _⟩
  · intro s img s2 out h
    unfold DynamicBackgroundMP.subtract_background at h
    by_cases hz : s.every_n_image = 0
    · rw [if_pos hz] at h
      exact absurd h (by simp)
    · rw [if_neg hz] at h
      by_cases hm : s.counter % s.every_n_image = 0
      · by_cases h0 : s.counter = 0
        · simp only [hm, if_true, h0, if_true, Except.ok.injEq, Prod.mk.injEq] at h
          rw [← h.2]
          exact ⟨rfl, rfl, fun r c => le_max_left 0 _⟩
        · simp only [hm, if_true, h0, if_false, Except.ok.injEq, Prod.mk.injEq] at h
          rw [← h.2]
          exact ⟨rfl, rfl, fun r c => le_max_left 0 _⟩
      · simp only [hm, if_false, Except.ok.injEq, Prod.mk.injEq] at h
        rw [← h.2]
        exact ⟨rfl, rfl, fun r c => le_max_left 0 _⟩


/-- Witness fixture: a 1×1 uint8 frame of constant 100. -/
def frameW : Frame := ⟨1, 1, DType.u8, fun _ _ => 100⟩

/-- Witness fixture: a zeroed 1×1 float32 background. -/
def bgW : Frame := ⟨1, 1, DType.f32, zeroData⟩

/-- Witness fixture: a freshly initialized chunked state (10-frame video,
3 chunks, no frames processed yet). -/
def chunkedW : StaticBackgroundChunkedState :=
  { height := 1, width := 1, numframes := 10, num_chunks := 3, image_count := 0,
    background := fun _ _ _ => 0, polarity := Polarity.BRIGHT_ON_DARK }

/-- Witness fixture: a freshly initialized in-process streaming state. -/
def dynW : DynamicBackgroundState :=
  { num_sample_frames := 5, sample_every_n_frames := 2, frame_collection := [],
    curr_image := 0, background := none, polarity := Polarity.BRIGHT_ON_DARK }

/-- Witness fixture: an offloaded streaming producer state past bootstrap. -/
def mpW : DynamicBackgroundMPState :=
  { width := 1, height := 1, num_images := 5, every_n_image := 2, counter := 1,
    image_store := BoundedQueue.new 5, background := zeroData,
    polarity := Polarity.BRIGHT_ON_DARK }

set_option maxHeartbeats 2000000 in
/-- Witness for the amended C1: each variant's conjunct instantiated at
the concrete fixtures, every hypothesis discharged. -/
theorem subtract_output_shape_dtype_nonneg_witness :
    ((∀ r c, (0:ℚ) ≤ frameW.data r c)
      ∧ ((NoBackgroundSub.subtract_background frameW).height = frameW.height
        ∧ (NoBackgroundSub.subtract_background frameW).width = frameW.width
        ∧ (NoBackgroundSub.subtract_background frameW).dtype = DType.f32
        ∧ ∀ r c, 0 ≤ (NoBackgroundSub.subtract_background frameW).data r c))
    ∧ (((BackroundImage.initializeState frameW Polarity.BRIGHT_ON_DARK).heap
          (BackroundImage.initializeState frameW Polarity.BRIGHT_ON_DARK).imageSingleAddr).dtype
            = DType.f32
      ∧ ((BackroundImage.initializeState frameW Polarity.BRIGHT_ON_DARK).heap
          (BackroundImage.initializeState frameW Polarity.BRIGHT_ON_DARK).imageSingleAddr).height
            = frameW.height
      ∧ ((BackroundImage.initializeState frameW Polarity.BRIGHT_ON_DARK).heap
          (BackroundImage.initializeState frameW Polarity.BRIGHT_ON_DARK).imageSingleAddr).width
            = frameW.width)
    ∧ (((BackroundImage.initializeState frameW Polarity.BRIGHT_ON_DARK).heap
          (BackroundImage.initializeState frameW Polarity.BRIGHT_ON_DARK).imageSingleAddr).dtype
            = DType.f32
      ∧ (((BackroundImage.subtract_background
            (BackroundImage.initializeState frameW Polarity.BRIGHT_ON_DARK) frameW).1).heap
          (BackroundImage.subtract_background
            (BackroundImage.initializeState frameW Polarity.BRIGHT_ON_DARK) frameW).2).height
            = frameW.height
      ∧ (((BackroundImage.subtract_background
            (BackroundImage.initializeState frameW Polarity.BRIGHT_ON_DARK) frameW).1).heap
          (BackroundImage.subtract_background
            (BackroundImage.initializeState frameW Polarity.BRIGHT_ON_DARK) frameW).2).width
            = frameW.width
      ∧ (((BackroundImage.subtract_background
            (BackroundImage.initializeState frameW Polarity.BRIGHT_ON_DARK) frameW).1).heap
          (BackroundImage.subtract_background
            (BackroundImage.initializeState frameW Polarity.BRIGHT_ON_DARK) frameW).2).dtype
            = DType.f32
      ∧ ∀ r c, 0 ≤ (((BackroundImage.subtract_background
            (BackroundImage.initializeState frameW Polarity.BRIGHT_ON_DARK) frameW).1).heap
          (BackroundImage.subtract_background
            (BackroundImage.initializeState frameW Polarity.BRIGHT_ON_DARK) frameW).2).data r c)
    ∧ (bgW.dtype = DType.f32
      ∧ ((InpaintBackground.subtract_background Polarity.BRIGHT_ON_DARK bgW frameW).height
            = frameW.height
        ∧ (InpaintBackground.subtract_background Polarity.BRIGHT_ON_DARK bgW frameW).width
            = frameW.width
        ∧ (InpaintBackground.subtract_background Polarity.BRIGHT_ON_DARK bgW frameW).dtype
            = DType.f32
        ∧ ∀ r c, 0 ≤ (InpaintBackground.subtract_background
            Polarity.BRIGHT_ON_DARK bgW frameW).data r c))
    ∧ (bgW.dtype = DType.f32
      ∧ ((StaticBackground.subtract_background Polarity.BRIGHT_ON_DARK bgW frameW).height
            = frameW.height
        ∧ (StaticBackground.subtract_background Polarity.BRIGHT_ON_DARK bgW frameW).width
            = frameW.width
        ∧ (StaticBackground.subtract_background Polarity.BRIGHT_ON_DARK bgW frameW).dtype
            = DType.f32
        ∧ ∀ r c, 0 ≤ (StaticBackground.subtract_background
            Polarity.BRIGHT_ON_DARK bgW frameW).data r c))
    ∧ (∃ out s2, StaticBackgroundChunked.subtract_background chunkedW frameW
          = Except.ok (out, s2)
        ∧ (out.height = frameW.height ∧ out.width = frameW.width
          ∧ out.dtype = DType.f32 ∧ ∀ r c, 0 ≤ out.data r c))
    ∧ (∃ s2 out, DynamicBackground.subtract_background modeVal dynW frameW
          = Except.ok (s2, out)
        ∧ (out.height = frameW.height ∧ out.width = frameW.width
          ∧ ∀ r c, 0 ≤ out.data r c))
    ∧ (∃ s2 out, DynamicBackgroundMP.subtract_background mpW frameW
          = Except.ok (s2, out)
        ∧ (out.height = frameW.height ∧ out.width = frameW.width
          ∧ ∀ r c, 0 ≤ out.data r c)) := by
  obtain ⟨h1, h2, h3, h4, h5, h6, h7, h8⟩ := subtract_output_shape_dtype_nonneg
  have hnn : ∀ r c, (0:ℚ) ≤ frameW.data r c := by
    intro r c
    norm_num [frameW]
  refine ⟨⟨hnn, h1 frameW hnn⟩, h2 frameW Polarity.BRIGHT_ON_DARK,
    ⟨rfl, h3 (BackroundImage.initializeState frameW Polarity.BRIGHT_ON_DARK) frameW rfl rfl rfl⟩,
    ⟨rfl, h4 Polarity.BRIGHT_ON_DARK bgW frameW rfl⟩,
    ⟨rfl, h5 Polarity.BRIGHT_ON_DARK bgW frameW rfl⟩,
    ⟨_, _, rfl, h6 chunkedW frameW _ _ rfl⟩,
    ⟨_, _, rfl, h7 modeVal dynW frameW _ _ rfl⟩,
    ⟨_, _, rfl, h8 mpW frameW _ _ rfl⟩⟩

end VideoTools
